import Mathlib

/-!
Verification of the YouTube transcript acquisition subsystem of the
Research-Blender repository (Netlify functions `youtube-info.js` and
`youtube-transcript.js`, plus the companion info endpoint).

Strings are modelled as `List Char`.  JavaScript regular-expression
matching is modelled by hand-compiled backtracking matchers that follow
the engine's priority order exactly: a greedy quantifier offers the
longest consumption first, a lazy quantifier the shortest, an optional
group tries to match before matching empty, and the overall search tries
each start position from the left.  JavaScript numbers are modelled as
exact rationals (`Rat`), with `none : Option Rat` standing for `NaN`;
none of the verified claims depends on IEEE rounding.
-/

/-- Literal matcher: `lit p s` consumes the literal `p` from the front of
`s`, returning the rest, exactly as a sequence of literal characters in a
regular expression does. -/
def lit : List Char → List Char → Option (List Char)
  | [], s => some s
  | _ :: _, [] => none
  | p :: ps, c :: cs => if p = c then lit ps cs else none

/-- Candidate remainders for a greedy character-class star (`[^X]*`):
the matcher tries consuming the whole maximal run first, then ever
shorter prefixes of it, down to consuming nothing. -/
def greedyTails (p : Char → Bool) (s : List Char) : List (List Char) :=
  let n := (s.takeWhile p).length
  (List.range (n + 1)).map (fun k => s.drop (n - k))

/-- Candidate (capture, remainder) pairs for a greedy capturing plus
(`([^X]+)`): longest capture first, shortest last, never empty. -/
def greedyCaps (p : Char → Bool) (s : List Char) : List (List Char × List Char) :=
  let a := s.takeWhile p
  let n := a.length
  (List.range n).map (fun k => (a.take (n - k), s.drop (n - k)))

/-- Candidate (capture, remainder) pairs for a greedy capturing star
(`([^X]*)`): longest capture first, down to the empty capture. -/
def greedyCapsStar (p : Char → Bool) (s : List Char) : List (List Char × List Char) :=
  let a := s.takeWhile p
  let n := a.length
  (List.range (n + 1)).map (fun k => (a.take (n - k), s.drop (n - k)))

/-- Candidate (capture, remainder) pairs for a lazy dot-all capturing
star (`([\s\S]*?)`): shortest capture first. -/
def lazyCaps (s : List Char) : List (List Char × List Char) :=
  (List.range (s.length + 1)).map (fun k => (s.take k, s.drop k))

/-- Raw captures of one successful match of the main transcript regex
`<text[^>]*start="([^"]+)"[^>]*(?:dur="([^"]+)")?[^>]*>([\s\S]*?)<\/text>`
(`youtube-transcript.js` line 169 and `youtube-info.js` line 340):
group 1 (`startAttr`), group 2 (`durAttr`, absent when the optional group
did not participate) and group 3 (`content`). -/
structure RawTextMatch where
  startAttr : List Char
  durAttr : Option (List Char)
  content : List Char
deriving DecidableEq

/-- Alternatives for the optional group `(?:dur="([^"]+)")?`, in the
engine's priority order: first every way of actually matching
`dur="([^"]+)"` (longest capture first), then matching empty with the
capture group left unset. -/
def durAlts (s : List Char) : List (Option (List Char) × List Char) :=
  (match lit ("dur=\"".toList) s with
   | none => []
   | some r =>
     (greedyCaps (fun c => c != '"') r).filterMap (fun pr =>
       (lit ['"'] pr.2).map (fun r2 => (some pr.1, r2))))
  ++ [(none, s)]

/-- One attempted match of the main transcript regex anchored at the
front of `s`; on success returns the captures and the remainder of the
input after the match.  Each combinator enumerates its alternatives in
the regex engine's priority order, so this is a faithful model of the
JavaScript pattern including backtracking. -/
def matchMainHere (s : List Char) : Option (RawTextMatch × List Char) :=
  (lit ("<text".toList) s).bind (fun r1 =>
  (greedyTails (fun c => c != '>') r1).findSome? (fun r2 =>
  (lit ("start=\"".toList) r2).bind (fun r3 =>
  (greedyCaps (fun c => c != '"') r3).findSome? (fun sCap =>
  (lit ['"'] sCap.2).bind (fun r5 =>
  (greedyTails (fun c => c != '>') r5).findSome? (fun r6 =>
  (durAlts r6).findSome? (fun dAlt =>
  (greedyTails (fun c => c != '>') dAlt.2).findSome? (fun r8 =>
  (lit ['>'] r8).bind (fun r9 =>
  (lazyCaps r9).findSome? (fun tCap =>
  (lit ("</text>".toList) tCap.2).map (fun r11 =>
  (⟨sCap.1, dAlt.1, tCap.1⟩, r11))))))))))))

/-- Global matching (`matchAll` with the `g` flag): gather successive
matches left to right; after a match the search resumes at the match
end, after a failed start position it advances one character.  The fuel
argument bounds the recursion; `matchAllMain` supplies enough fuel for
the whole input since every step consumes at least one character. -/
def matchAllMainAux : Nat → List Char → List RawTextMatch
  | 0, _ => []
  | fuel + 1, s =>
    match matchMainHere s with
    | some (m, rest) => m :: matchAllMainAux fuel rest
    | none =>
      match s with
      | [] => []
      | _ :: t => matchAllMainAux fuel t

def matchAllMain (s : List Char) : List RawTextMatch :=
  matchAllMainAux (s.length + 1) s

/-- Consume characters up to and including the first `>`, the effect of
`[^>]*>` after a `<` in the tag-stripping replace.  `none` when no `>`
remains, in which case the regex `<[^>]*>` has no match there. -/
def dropThroughGt : List Char → Option (List Char)
  | [] => none
  | c :: t => if c = '>' then some t else dropThroughGt t

/-- Model of `.replace(/<[^>]*>/g, '')` (strip nested tags): delete every
`<`-to-`>` span, scanning left to right, leaving a `<` with no later `>`
in place.  Structural recursion on a fuel bound (each step consumes at
least one character, so `s.length` fuel is always enough). -/
def stripTagsAux : Nat → List Char → List Char
  | _, [] => []
  | 0, s => s
  | fuel + 1, c :: t =>
    if c = '<' then
      match dropThroughGt t with
      | some rest => stripTagsAux fuel rest
      | none => c :: stripTagsAux fuel t
    else c :: stripTagsAux fuel t

def stripTags (s : List Char) : List Char :=
  stripTagsAux s.length s

/-- Model of `.replace(/PAT/g, REP)` for a literal pattern `c0 :: cs`:
global leftmost non-overlapping replacement, continuing after the
replacement text.  Fueled like `stripTagsAux`. -/
def replaceListAux (c0 : Char) (cs rep : List Char) : Nat → List Char → List Char
  | _, [] => []
  | 0, s => s
  | fuel + 1, c :: t =>
    match lit (c0 :: cs) (c :: t) with
    | some r => rep ++ replaceListAux c0 cs rep fuel r
    | none => c :: replaceListAux c0 cs rep fuel t

def replaceList (c0 : Char) (cs rep : List Char) (s : List Char) : List Char :=
  replaceListAux c0 cs rep s.length s

/-- Convenience wrapper taking the pattern and replacement as `String`s. -/
def replaceStr (pat rep : String) (s : List Char) : List Char :=
  match pat.toList with
  | [] => s
  | c :: cs => replaceList c cs rep.toList s

/-- Model of `String.prototype.trim`: drop whitespace from both ends. -/
def trimList (s : List Char) : List Char :=
  ((s.dropWhile Char.isWhitespace).reverse.dropWhile Char.isWhitespace).reverse

/-- Per-segment text cleanup of the main parser (`youtube-transcript.js`
lines 175-184 and identically `youtube-info.js` lines 346-355): strip
nested tags, decode `&amp; &lt; &gt; &quot; &#39; &nbsp;` in that order,
collapse newlines to spaces, trim. -/
def cleanTextMain (raw : List Char) : List Char :=
  trimList
    (List.map (fun c => if c = '\n' then ' ' else c)
      (replaceStr "&nbsp;" " "
        (replaceStr "&#39;" "\x27"
          (replaceStr "&quot;" "\""
            (replaceStr "&gt;" ">"
              (replaceStr "&lt;" "<"
                (replaceStr "&amp;" "&"
                  (stripTags raw))))))))

/-- Accumulate a decimal digit string as a natural number. -/
def digitsVal (ds : List Char) : Nat :=
  ds.foldl (fun a c => a * 10 + (c.toNat - 48)) 0

/-- Model of JavaScript `parseFloat` restricted to plain decimal forms
(optional sign, integer digits, optional fraction; trailing junk is
ignored), which are the only forms the transcript code ever feeds it.
`none` stands for `NaN`; the value is an exact rational. -/
def jsParseFloat (s : List Char) : Option Rat :=
  let s1 := s.dropWhile Char.isWhitespace
  let sgn : Bool × List Char :=
    match s1 with
    | c :: t => if c = '-' then (true, t) else if c = '+' then (false, t) else (false, s1)
    | [] => (false, s1)
  let intPart := sgn.2.takeWhile Char.isDigit
  let s3 := sgn.2.dropWhile Char.isDigit
  let fracPart : List Char :=
    match s3 with
    | c :: t => if c = '.' then t.takeWhile Char.isDigit else []
    | [] => []
  if intPart = [] ∧ fracPart = [] then none
  else
    let v : Rat :=
      mkRat (Int.ofNat (digitsVal intPart * Nat.pow 10 fracPart.length + digitsVal fracPart))
        (Nat.pow 10 fracPart.length)
    some (if sgn.1 then -v else v)

/-- `TranscriptSegment`: start and duration in seconds (exact rationals,
`none` for `NaN`), and the cleaned caption text. -/
structure TranscriptSegment where
  start : Option Rat
  duration : Option Rat
  text : List Char
deriving DecidableEq

/-- `TranscriptResult`: the ordered segments and the combined text. -/
structure TranscriptResult where
  segments : List TranscriptSegment
  fullText : List Char
deriving DecidableEq

/-- `Array.prototype.join(' ')`: texts joined with a single space. -/
def joinSpace : List (List Char) → List Char
  | [] => []
  | [x] => x
  | x :: y :: t => x ++ ' ' :: joinSpace (y :: t)

/-- Segment built from one raw regex match (`youtube-transcript.js`
lines 171-189): `start` is `parseFloat` of group 1, `duration` is
`parseFloat` of group 2 when that group participated and the number `0`
otherwise, and the segment is kept only when the cleaned text is
non-empty. -/
def segOfMatch (m : RawTextMatch) : Option TranscriptSegment :=
  let text := cleanTextMain m.content
  if text = [] then none
  else
    some { start := jsParseFloat m.startAttr,
           duration :=
             match m.durAttr with
             | some d => jsParseFloat d
             | none => some 0,
           text := text }

/-- `parseTranscriptXml` (`youtube-transcript.js` lines 165-202, repeated
verbatim in `youtube-info.js` lines 336-373): run the main regex
globally, keep the segments with non-empty cleaned text, fail when none
remain, and otherwise return the segments with their space-joined texts. -/
def parseTranscriptXml (transcriptXml : List Char) : Except String TranscriptResult :=
  let segments := (matchAllMain transcriptXml).filterMap segOfMatch
  if segments = [] then
    .error "Could not parse transcript XML - no text segments found"
  else
    .ok { segments := segments, fullText := joinSpace (segments.map TranscriptSegment.text) }

deriving instance DecidableEq for Except

/-- Raw captures of one match of the simpler inline regex
`<text start="([^"]+)" dur="([^"]+)"[^>]*>([^<]*)<\/text>` used by the
page-scrape strategy (`youtube-info.js` line 441), the
youtubetranscript.com relay (`youtube-info.js` line 508) and the browser
extension. -/
structure RawPageMatch where
  startAttr : List Char
  durAttr : List Char
  content : List Char
deriving DecidableEq

/-- One attempted match of the inline regex anchored at the front of
`s`, alternatives in the engine's priority order. -/
def matchPageHere (s : List Char) : Option (RawPageMatch × List Char) :=
  (lit ("<text start=\"".toList) s).bind (fun r1 =>
  (greedyCaps (fun c => c != '"') r1).findSome? (fun sCap =>
  (lit ("\" dur=\"".toList) sCap.2).bind (fun r2 =>
  (greedyCaps (fun c => c != '"') r2).findSome? (fun dCap =>
  (lit ['"'] dCap.2).bind (fun r3 =>
  (greedyTails (fun c => c != '>') r3).findSome? (fun r4 =>
  (lit ['>'] r4).bind (fun r5 =>
  (greedyCapsStar (fun c => c != '<') r5).findSome? (fun tCap =>
  (lit ("</text>".toList) tCap.2).map (fun r6 =>
  (⟨sCap.1, dCap.1, tCap.1⟩, r6))))))))))

/-- Global matching of the inline regex, as in `regex.exec` loops. -/
def matchAllPageAux : Nat → List Char → List RawPageMatch
  | 0, _ => []
  | fuel + 1, s =>
    match matchPageHere s with
    | some (m, rest) => m :: matchAllPageAux fuel rest
    | none =>
      match s with
      | [] => []
      | _ :: t => matchAllPageAux fuel t

def matchAllPage (s : List Char) : List RawPageMatch :=
  matchAllPageAux (s.length + 1) s

/-- Per-segment cleanup of the page-scrape inline parser
(`youtube-info.js` lines 448-454): decode `&amp; &lt; &gt; &#39; &quot;`
in that order, collapse newlines, trim.  Note: no tag stripping, no
`&nbsp;`, and no empty-text filtering happens in this path. -/
def cleanTextPage (raw : List Char) : List Char :=
  trimList
    (List.map (fun c => if c = '\n' then ' ' else c)
      (replaceStr "&quot;" "\""
        (replaceStr "&#39;" "\x27"
          (replaceStr "&gt;" ">"
            (replaceStr "&lt;" "<"
              (replaceStr "&amp;" "&" raw))))))

/-- The parsing-and-packaging tail of `fetchTranscriptFromPage`
(`youtube-info.js` lines 440-466): every regex match becomes a segment
(no empty-text guard), and the result is returned only when at least one
segment was found. -/
def parsePageCaptionXml (captionXml : List Char) : Option TranscriptResult :=
  let segments := (matchAllPage captionXml).map (fun m =>
    ({ start := jsParseFloat m.startAttr, duration := jsParseFloat m.durAttr,
       text := cleanTextPage m.content } : TranscriptSegment))
  if segments.length > 0 then
    some { segments := segments, fullText := joinSpace (segments.map TranscriptSegment.text) }
  else none

/-- Per-segment cleanup of the youtubetranscript.com relay
(`youtube-info.js` lines 514-519): decode `&amp; &lt; &gt; &#39;`, trim.
No `&quot;` decoding and no newline collapsing in this path. -/
def cleanTextRelay (raw : List Char) : List Char :=
  trimList
    (replaceStr "&#39;" "\x27"
      (replaceStr "&gt;" ">"
        (replaceStr "&lt;" "<"
          (replaceStr "&amp;" "&" raw))))

/-- The youtubetranscript.com relay's parse of the fetched body
(`youtube-info.js` lines 506-529): same inline regex, unconditional
push, `null` when no segment matched. -/
def youtubeTranscriptComResult (text : List Char) : Option TranscriptResult :=
  let segments := (matchAllPage text).map (fun m =>
    ({ start := jsParseFloat m.startAttr, duration := jsParseFloat m.durAttr,
       text := cleanTextRelay m.content } : TranscriptSegment))
  if segments.length > 0 then
    some { segments := segments, fullText := joinSpace (segments.map TranscriptSegment.text) }
  else none

/-- The Supadata relay's packaging (`youtube-info.js` lines 488-495):
when the JSON answer has a truthy `content` string it is wrapped as one
pseudo-segment with start 0 and duration 0; otherwise `null`.  The
argument is the `content` field of the response (`none` when absent, an
empty list being falsy like the empty string). -/
def supadataResult (content : Option (List Char)) : Option TranscriptResult :=
  match content with
  | some c =>
    if c = [] then none
    else some { segments := [{ start := some 0, duration := some 0, text := c }], fullText := c }
  | none => none

/-- One caption entry of the Tactiq relay's JSON answer: millisecond
start and duration and the text. -/
structure TactiqCaption where
  start : Rat
  dur : Rat
  text : List Char
deriving DecidableEq

/-- The Tactiq relay's packaging (`youtube-info.js` lines 538-551): when
`captions` is present and non-empty, each entry becomes a segment with
`start/1000` and `dur/1000` (the division is written as
`mkRat num (den * 1000)`, which is exact division by 1000); otherwise
`null`. -/
def tactiqResult (captions : Option (List TactiqCaption)) : Option TranscriptResult :=
  match captions with
  | some cs =>
    if cs.length > 0 then
      let segments := cs.map (fun c =>
        ({ start := some (mkRat c.start.num (c.start.den * 1000)),
           duration := some (mkRat c.dur.num (c.dur.den * 1000)),
           text := c.text } : TranscriptSegment))
      some { segments := segments, fullText := joinSpace (segments.map TranscriptSegment.text) }
    else none
  | none => none

/-- The acceptance test of the third-party loop (`youtube-info.js` line
560): `result && result.fullText && result.fullText.length > 50`. -/
def relayAccepts (r : TranscriptResult) : Bool :=
  !r.fullText.isEmpty && decide (50 < r.fullText.length)

/-- The relay loop of `fetchTranscriptFromThirdParty` (`youtube-info.js`
lines 556-570), abstracted over the network: each list entry is one
relay's outcome in the fixed order Supadata, youtubetranscript.com,
Tactiq — `.error` when its fetch threw (caught and logged), `.ok none`
when it returned `null`, `.ok (some r)` when it returned a result.  The
first accepted result is returned; otherwise `null`. -/
def fetchTranscriptFromThirdParty : List (Except String (Option TranscriptResult)) → Option TranscriptResult
  | [] => none
  | o :: rest =>
    match o with
    | .error _ => fetchTranscriptFromThirdParty rest
    | .ok none => fetchTranscriptFromThirdParty rest
    | .ok (some result) =>
      if relayAccepts result then some result
      else fetchTranscriptFromThirdParty rest

/-- `CaptionTrack`: language code and optional `kind` field (`"asr"`
marks auto-generated tracks; manual tracks have no `kind` or another
value). -/
structure CaptionTrack where
  languageCode : String
  kind : Option String
deriving DecidableEq

/-- Track selection of `fetchTranscriptDirect` (`youtube-transcript.js`
lines 126-135 and identically `youtube-info.js` lines 297-306): first
`find` with `languageCode === 'en' && kind !== 'asr'`, then
`languageCode === 'en'`, then `kind !== 'asr'`, then `captionTracks[0]`
(`none` on the empty list, where the JavaScript would index out of
bounds). -/
def selectTrackDirect (captionTracks : List CaptionTrack) : Option CaptionTrack :=
  match captionTracks.find? (fun t => t.languageCode == "en" && t.kind != some "asr") with
  | some t => some t
  | none =>
    match captionTracks.find? (fun t => t.languageCode == "en") with
    | some t => some t
    | none =>
      match captionTracks.find? (fun t => t.kind != some "asr") with
      | some t => some t
      | none => captionTracks.head?

/-- Track selection of `fetchTranscriptFromPage` (`youtube-info.js`
lines 416-419): first `find` with
`languageCode === 'en' || languageCode.startsWith('en')`, else
`captions[0]`.  No manual-vs-auto-generated preference exists in this
path. -/
def selectTrackPage (captions : List CaptionTrack) : Option CaptionTrack :=
  match captions.find? (fun c => c.languageCode == "en" || c.languageCode.startsWith "en") with
  | some t => some t
  | none => captions.head?

/-- Is `c` in the video-id alphabet `[a-zA-Z0-9_-]`? -/
def isIdChar (c : Char) : Bool :=
  c.isAlphanum || c = '_' || c = '-'

/-- The capture `([^#&?]{11})`: exactly eleven characters, none of which
is `#`, `&` or `?`. -/
def grabN : Nat → List Char → Option (List Char)
  | 0, _ => some []
  | _ + 1, [] => none
  | n + 1, c :: t =>
    if c = '#' ∨ c = '&' ∨ c = '?' then none
    else (grabN n t).map (fun r => c :: r)

/-- At one start position, try each alternative marker of the
non-capturing group in order, each followed by `([^#&?]{11})`. -/
def tryMarkers (markers : List (List Char)) (s : List Char) : Option (List Char) :=
  markers.findSome? (fun m => (lit m s).bind (fun r => grabN 11 r))

/-- Leftmost regex search: try each start position from the left. -/
def scanList (markers : List (List Char)) : List Char → Option (List Char)
  | [] => tryMarkers markers []
  | c :: t =>
    match tryMarkers markers (c :: t) with
    | some r => some r
    | none => scanList markers t

/-- Alternatives of the first URL pattern
`(?:youtube\.com\/watch\?v=|youtu\.be\/|youtube\.com\/embed\/)([^#&?]{11})`. -/
def watchMarkers : List (List Char) :=
  ["youtube.com/watch?v=".toList, "youtu.be/".toList, "youtube.com/embed/".toList]

/-- Alternative of the second URL pattern
`(?:youtube\.com\/shorts\/)([^#&?]{11})`. -/
def shortsMarkers : List (List Char) :=
  ["youtube.com/shorts/".toList]

/-- `extractVideoId` (`youtube-transcript.js` lines 4-21, identical in
`youtube-info.js` and the extension): apply the two URL patterns in
order, returning the first match's capture; else accept the whole input
as a bare id via `^[a-zA-Z0-9_-]{11}$`; else `null`. -/
def extractVideoId (url : List Char) : Option (List Char) :=
  match scanList watchMarkers url with
  | some v => some v
  | none =>
    match scanList shortsMarkers url with
    | some v => some v
    | none =>
      if url.length = 11 ∧ url.all isIdChar = true then some url else none

/-- Does `p` occur as a contiguous substring of `s`?  Used to
characterise inputs on which the main regex cannot match at all. -/
def hasSub (p : List Char) : List Char → Bool
  | [] => (lit p []).isSome
  | c :: t => (lit p (c :: t)).isSome || hasSub p t

/-- The outcome of one acquisition strategy as observed by the
orchestrator: `.error` when the strategy threw, `.ok none` when it
returned `null`, `.ok (some r)` when it returned a transcript. -/
abbrev StrategyOutcome : Type := Except String (Option TranscriptResult)

/-- The transcript a strategy outcome contributes (`null` on a throw). -/
def strategyProduced (o : StrategyOutcome) : Option TranscriptResult :=
  match o with
  | .ok r => r
  | .error _ => none

/-- The error a strategy outcome records into `lastError`, if any. -/
def strategyError (o : StrategyOutcome) : Option String :=
  match o with
  | .ok _ => none
  | .error e => some e

/-- Trace of the orchestrator in the transcript handler of
`youtube-info.js`: the final `result` and `lastError` variables plus
which strategies were invoked. -/
structure OrchTrace where
  result : Option TranscriptResult
  lastError : Option String
  invokedPage : Bool
  invokedThirdParty : Bool
  invokedInnertube : Bool
deriving DecidableEq

/-- The strategy orchestration of the transcript handler
(`youtube-info.js` lines 626-669), abstracted over the three strategies'
outcomes: Method 1 (`fetchTranscriptFromPage`) always runs; Method 2
(`fetchTranscriptFromThirdParty`) runs only `if (!result)`; Method 3
(`fetchTranscriptDirect`) runs only `if (!result)`.  Each strategy is
wrapped in its own try/catch which updates `lastError` and never aborts
the handler. -/
def orchestrate (page thirdParty innertube : StrategyOutcome) : OrchTrace :=
  let r1 := strategyProduced page
  let e1 := (strategyError page).or none
  if r1.isSome then
    { result := r1, lastError := e1,
      invokedPage := true, invokedThirdParty := false, invokedInnertube := false }
  else
    let r2 := strategyProduced thirdParty
    let e2 := (strategyError thirdParty).or e1
    if r2.isSome then
      { result := r2, lastError := e2,
        invokedPage := true, invokedThirdParty := true, invokedInnertube := false }
    else
      let r3 := strategyProduced innertube
      let e3 := (strategyError innertube).or e2
      { result := r3, lastError := e3,
        invokedPage := true, invokedThirdParty := true, invokedInnertube := true }

/-- The `if (!result) throw lastError || new Error('All transcript fetch
methods failed')` step (`youtube-info.js` lines 667-669) on top of the
orchestration. -/
def orchestrateOutcome (page thirdParty innertube : StrategyOutcome) : Except String TranscriptResult :=
  let tr := orchestrate page thirdParty innertube
  match tr.result with
  | some r => .ok r
  | none => .error (tr.lastError.getD "All transcript fetch methods failed")

/-- Response bodies the modelled handlers can produce: the empty string,
the stringified `{ success, error }` JSON object, or an arbitrary body
produced by the POST continuation. -/
inductive RespBody where
  | empty
  | errJson (success : Bool) (error : String)
  | raw (s : String)
deriving DecidableEq

/-- An HTTP response of a Netlify function: status code, header list,
body. -/
structure HttpResponse where
  statusCode : Nat
  headers : List (String × String)
  body : RespBody
deriving DecidableEq

/-- The CORS header set both functions build (`youtube-info.js` lines
37-42 and 579-584, `youtube-transcript.js` lines 210-215). -/
def corsHeaders : List (String × String) :=
  [("Access-Control-Allow-Origin", "*"),
   ("Access-Control-Allow-Headers", "Content-Type"),
   ("Access-Control-Allow-Methods", "POST, OPTIONS"),
   ("Content-Type", "application/json")]

/-- The info endpoint's handler (`youtube-info.js` lines 27-104),
abstracted over everything after the method dispatch: the non-POST 405
return (line 29, and note it carries no headers) comes BEFORE the
OPTIONS branch (line 45), so the OPTIONS branch is unreachable.
`postResponse` stands for the response computed by the body of the
handler for a POST request. -/
def infoHandler (httpMethod : String) (postResponse : HttpResponse) : HttpResponse :=
  if httpMethod ≠ "POST" then
    { statusCode := 405, headers := [], body := .errJson false "Method Not Allowed" }
  else if httpMethod = "OPTIONS" then
    { statusCode := 200, headers := corsHeaders, body := .empty }
  else postResponse

/-- The transcript handlers' method dispatch (`youtube-transcript.js`
lines 217-229 and `youtube-info.js` lines 586-598): OPTIONS is answered
first with 200 and the CORS headers, then every non-POST method gets the
405, and POST falls through to the body. -/
def transcriptHandler (httpMethod : String) (postResponse : HttpResponse) : HttpResponse :=
  if httpMethod = "OPTIONS" then
    { statusCode := 200, headers := corsHeaders, body := .empty }
  else if httpMethod ≠ "POST" then
    { statusCode := 405, headers := corsHeaders, body := .errJson false "Method Not Allowed" }
  else postResponse

/-- A small concrete transcript used by witnesses. -/
def demoTR : TranscriptResult :=
  { segments := [{ start := some 0, duration := some 0, text := "hi".toList }],
    fullText := "hi".toList }

/-- Does matching the literal `m` against `v` hit a real character
mismatch strictly inside `v` (rather than running off its end)?  When it
does, `lit m (v ++ s)` fails for every continuation `s`. -/
def mismatchWithin : List Char → List Char → Bool
  | [], _ => false
  | _ :: _, [] => false
  | c :: m, d :: v => if c = d then mismatchWithin m v else true

/-- An auto-generated English track. -/
def trkEnAsr : CaptionTrack := { languageCode := "en", kind := some "asr" }

/-- A manually authored English track (no `kind` field). -/
def trkEnManual : CaptionTrack := { languageCode := "en", kind := none }

/-- The spec's track-selection example list. -/
def demoTracks : List CaptionTrack :=
  [trkEnAsr, trkEnManual, { languageCode := "fr", kind := none }]

/-- Caption XML whose first element's content is a lone blank (cleaning
to the empty string) and whose first start attribute is negative. -/
def c8Xml : List Char :=
  "<text start=\"-5\" dur=\"1\"> </text><text start=\"2\" dur=\"3\">hi</text>".toList

/-- A transcript whose combined text has exactly 49 characters. -/
def tr49 : TranscriptResult :=
  { segments :=
      [{ start := some 0, duration := some 0,
         text := "1234567890123456789012345678901234567890123456789".toList }],
    fullText := "1234567890123456789012345678901234567890123456789".toList }

/-- A transcript whose combined text has exactly 50 characters. -/
def tr50 : TranscriptResult :=
  { segments :=
      [{ start := some 0, duration := some 0,
         text := "12345678901234567890123456789012345678901234567890".toList }],
    fullText := "12345678901234567890123456789012345678901234567890".toList }

/-- A transcript whose combined text has exactly 51 characters. -/
def tr51 : TranscriptResult :=
  { segments :=
      [{ start := some 0, duration := some 0,
         text := "123456789012345678901234567890123456789012345678901".toList }],
    fullText := "123456789012345678901234567890123456789012345678901".toList }

theorem lit_length : ∀ (p s r : List Char), lit p s = some r → s.length = p.length + r.length := by
  intro p
  induction p with
  | nil =>
    intro s r h
    simp [lit] at h
    simp [h]
  | cons c cs ih =>
    intro s r h
    cases s with
    | nil => simp [lit] at h
    | cons d ds =>
      simp only [lit] at h
      by_cases hc : c = d
      · simp [hc] at h
        have := ih ds r h
        simp [List.length_cons, this]
        omega
      · simp [hc] at h

theorem lit_some_eq : ∀ (p s r : List Char), lit p s = some r → s = p ++ r := by
  intro p
  induction p with
  | nil =>
    intro s r h
    simp [lit] at h
    simp [h]
  | cons c cs ih =>
    intro s r h
    cases s with
    | nil => simp [lit] at h
    | cons d ds =>
      simp only [lit] at h
      by_cases hc : c = d
      · simp [hc] at h
        simp [← hc, ih ds r h]
      · simp [hc] at h

theorem lit_self_append (p r : List Char) : lit p (p ++ r) = some r := by
  induction p with
  | nil => simp [lit]
  | cons c cs ih => simp [lit, ih]

theorem dropThroughGt_length : ∀ (t r : List Char), dropThroughGt t = some r → r.length < t.length := by
  intro t
  induction t with
  | nil => intro r h; simp [dropThroughGt] at h
  | cons c cs ih =>
    intro r h
    simp only [dropThroughGt] at h
    by_cases hc : c = '>'
    · simp [hc] at h
      simp [← h]
    · simp [hc] at h
      have := ih r h
      simp
      omega

theorem relayAccepts_iff (r : TranscriptResult) : relayAccepts r = true ↔ 50 < r.fullText.length := by
  simp only [relayAccepts, Bool.and_eq_true, Bool.not_eq_true', decide_eq_true_eq]
  constructor
  · rintro ⟨_, h⟩
    exact h
  · intro h
    refine ⟨?_, h⟩
    cases hfe : r.fullText.isEmpty with
    | false => rfl
    | true =>
      rw [List.isEmpty_iff] at hfe
      rw [hfe] at h
      simp at h

/-- Claim C1: in the transcript handler the strategies run in the fixed
order page-scrape, third-party relays, Innertube; a later strategy is
invoked only when every earlier one produced no result; the first
produced result short-circuits the rest and is returned; a single
strategy failure never by itself ends the request, which fails only when
all three strategies are exhausted. -/
theorem C1_orchestrator_short_circuit (page thirdParty innertube : StrategyOutcome) :
    (∀ r, page = Except.ok (some r) →
      orchestrate page thirdParty innertube =
        { result := some r, lastError := none,
          invokedPage := true, invokedThirdParty := false, invokedInnertube := false } ∧
      orchestrateOutcome page thirdParty innertube = Except.ok r) ∧
    ((orchestrate page thirdParty innertube).invokedThirdParty = true →
      strategyProduced page = none) ∧
    ((orchestrate page thirdParty innertube).invokedInnertube = true →
      strategyProduced page = none ∧ strategyProduced thirdParty = none) ∧
    (∀ r, strategyProduced page = none → thirdParty = Except.ok (some r) →
      (orchestrate page thirdParty innertube).result = some r ∧
      (orchestrate page thirdParty innertube).invokedInnertube = false ∧
      orchestrateOutcome page thirdParty innertube = Except.ok r) ∧
    (∀ r, strategyProduced page = none → strategyProduced thirdParty = none →
      innertube = Except.ok (some r) →
      (orchestrate page thirdParty innertube).result = some r ∧
      orchestrateOutcome page thirdParty innertube = Except.ok r) ∧
    ((orchestrate page thirdParty innertube).result = none ↔
      strategyProduced page = none ∧ strategyProduced thirdParty = none ∧
        strategyProduced innertube = none) := by
  refine ⟨?_, ?_, ?_, ?_, ?_, ?_⟩
  · rintro r rfl
    constructor
    · simp [orchestrate, strategyProduced, strategyError]
    · simp [orchestrateOutcome, orchestrate, strategyProduced, strategyError]
  · intro h
    cases hp : strategyProduced page with
    | none => rfl
    | some r => simp [orchestrate, hp] at h
  · intro h
    cases hp : strategyProduced page with
    | some r => simp [orchestrate, hp] at h
    | none =>
      cases ht : strategyProduced thirdParty with
      | some r => simp [orchestrate, hp, ht] at h
      | none => exact ⟨rfl, rfl⟩
  · rintro r hp rfl
    refine ⟨?_, ?_, ?_⟩
    · simp [orchestrate, hp]
      simp [strategyProduced]
    · simp [orchestrate, hp]
      simp [strategyProduced]
    · simp [orchestrateOutcome, orchestrate, hp]
      simp [strategyProduced]
  · rintro r hp ht rfl
    constructor
    · simp [orchestrate, hp, ht]
      simp [strategyProduced]
    · simp [orchestrateOutcome, orchestrate, hp, ht]
      simp [strategyProduced]
  · cases hp : strategyProduced page with
    | some r => simp [orchestrate, hp]
    | none =>
      cases ht : strategyProduced thirdParty with
      | some r => simp [orchestrate, hp, ht]
      | none =>
        cases hi : strategyProduced innertube with
        | some r => simp [orchestrate, hp, ht, hi]
        | none => simp [orchestrate, hp, ht, hi]

/-- Witness for C1: with the page strategy succeeding only it runs and
its result is returned; with the page strategy throwing, the third-party
result is returned. -/
theorem C1_witness :
    orchestrate (Except.ok (some demoTR)) (Except.ok none) (Except.ok none) =
      { result := some demoTR, lastError := none,
        invokedPage := true, invokedThirdParty := false, invokedInnertube := false } ∧
    (orchestrate (Except.error "page failed") (Except.ok (some demoTR)) (Except.ok none)).result =
      some demoTR :=
  ⟨((C1_orchestrator_short_circuit (Except.ok (some demoTR)) (Except.ok none)
      (Except.ok none)).1 demoTR rfl).1,
   ((C1_orchestrator_short_circuit (Except.error "page failed") (Except.ok (some demoTR))
      (Except.ok none)).2.2.2.1 demoTR rfl rfl).1⟩

/-- Claim C9: the transcript endpoint answers an OPTIONS preflight with
200, empty body and the CORS headers, but the companion info endpoint
does not — its non-POST 405 check precedes its OPTIONS branch, so an
OPTIONS request gets a 405 without CORS headers and the OPTIONS branch is
dead code. -/
theorem C9_options_preflight (p : HttpResponse) :
    infoHandler "OPTIONS" p =
      { statusCode := 405, headers := [], body := .errJson false "Method Not Allowed" } ∧
    transcriptHandler "OPTIONS" p =
      { statusCode := 200, headers := corsHeaders, body := .empty } := by
  constructor
  · unfold infoHandler
    rw [if_pos (by decide)]
  · unfold transcriptHandler
    rw [if_pos rfl]

/-- Witness for C9 at a concrete continuation response. -/
theorem C9_witness :
    infoHandler "OPTIONS" { statusCode := 200, headers := [], body := .raw "unused" } =
      { statusCode := 405, headers := [], body := .errJson false "Method Not Allowed" } :=
  (C9_options_preflight { statusCode := 200, headers := [], body := .raw "unused" }).1

/-- Claim C10: for a method that is neither POST nor OPTIONS both
handlers return 405 with the `{success:false, error:"Method Not
Allowed"}` body, and the response does not depend on the POST
continuation (the only part of either handler that performs network
calls), so no network call is made. -/
theorem C10_method_not_allowed (m : String) (h1 : m ≠ "POST") (h2 : m ≠ "OPTIONS")
    (p q : HttpResponse) :
    infoHandler m p =
      { statusCode := 405, headers := [], body := .errJson false "Method Not Allowed" } ∧
    transcriptHandler m p =
      { statusCode := 405, headers := corsHeaders, body := .errJson false "Method Not Allowed" } ∧
    infoHandler m p = infoHandler m q ∧
    transcriptHandler m p = transcriptHandler m q := by
  simp [infoHandler, transcriptHandler, h1, h2]

/-- Witness for C10 at method GET. -/
theorem C10_witness :
    infoHandler "GET" { statusCode := 200, headers := [], body := .raw "unused" } =
      { statusCode := 405, headers := [], body := .errJson false "Method Not Allowed" } ∧
    transcriptHandler "GET" { statusCode := 200, headers := [], body := .raw "unused" } =
      { statusCode := 405, headers := corsHeaders, body := .errJson false "Method Not Allowed" } :=
  ⟨(C10_method_not_allowed "GET" (by decide) (by decide)
      { statusCode := 200, headers := [], body := .raw "unused" }
      { statusCode := 200, headers := [], body := .raw "unused" }).1,
   (C10_method_not_allowed "GET" (by decide) (by decide)
      { statusCode := 200, headers := [], body := .raw "unused" }
      { statusCode := 200, headers := [], body := .raw "unused" }).2.1⟩

/-- Claim C5 counterexample: the acceptance test at `youtube-info.js`
line 560 is the strict `fullText.length > 50`, so a relay result whose
combined text has exactly 50 characters is REJECTED, contradicting the
claim that 50 or more characters is accepted. -/
theorem C5_counterexample :
    tr50.fullText.length = 50 ∧
    fetchTranscriptFromThirdParty [Except.ok (some tr50)] = none := by decide

/-- Claim C5 (amended): a 49-character result is rejected; only a result
with strictly more than 50 characters is accepted (so exactly 50 is also
rejected); a throwing or null relay is skipped; the first relay clearing
the threshold wins; and if no relay clears it the strategy returns
null. -/
theorem C5_threshold :
    (∀ (tr : TranscriptResult) (rest : List StrategyOutcome), tr.fullText.length = 49 →
      fetchTranscriptFromThirdParty (Except.ok (some tr) :: rest) =
        fetchTranscriptFromThirdParty rest) ∧
    (∀ (tr : TranscriptResult) (rest : List StrategyOutcome), 50 < tr.fullText.length →
      fetchTranscriptFromThirdParty (Except.ok (some tr) :: rest) = some tr) ∧
    (∀ (tr : TranscriptResult) (rest : List StrategyOutcome), tr.fullText.length ≤ 50 →
      fetchTranscriptFromThirdParty (Except.ok (some tr) :: rest) =
        fetchTranscriptFromThirdParty rest) ∧
    (∀ (e : String) (rest : List StrategyOutcome),
      fetchTranscriptFromThirdParty (Except.error e :: rest) =
        fetchTranscriptFromThirdParty rest) ∧
    (∀ rest : List StrategyOutcome,
      fetchTranscriptFromThirdParty (Except.ok none :: rest) =
        fetchTranscriptFromThirdParty rest) ∧
    fetchTranscriptFromThirdParty [] = none := by
  have hrej : ∀ (tr : TranscriptResult) (rest : List StrategyOutcome),
      tr.fullText.length ≤ 50 →
      fetchTranscriptFromThirdParty (Except.ok (some tr) :: rest) =
        fetchTranscriptFromThirdParty rest := by
    intro tr rest h
    have hacc : relayAccepts tr = false := by
      rw [← Bool.not_eq_true, relayAccepts_iff]
      omega
    simp [fetchTranscriptFromThirdParty, hacc]
  refine ⟨?_, ?_, hrej, ?_, ?_, rfl⟩
  · intro tr rest h
    exact hrej tr rest (by omega)
  · intro tr rest h
    have hacc : relayAccepts tr = true := (relayAccepts_iff tr).2 h
    simp [fetchTranscriptFromThirdParty, hacc]
  · intro e rest
    simp [fetchTranscriptFromThirdParty]
  · intro rest
    simp [fetchTranscriptFromThirdParty]

/-- Witness for C5: a 49-character relay result is skipped and the next
relay's 51-character result is returned. -/
theorem C5_witness :
    fetchTranscriptFromThirdParty [Except.ok (some tr49), Except.ok (some tr51)] = some tr51 := by
  have h1 := C5_threshold.1 tr49 [Except.ok (some tr51)] (by decide)
  have h2 := C5_threshold.2.1 tr51 [] (by decide)
  rw [h1, h2]

/-- Claim C3: for `<text>` elements carrying both `start` and `dur`
attributes, the parser is claimed to return the parsed `dur` as the
duration.  In fact the greedy `[^>]*` that precedes the optional
`(?:dur="([^"]+)")?` group consumes the whole attribute region and the
optional group then matches empty (the pattern still succeeds, so the
engine never backtracks into it), so group 2 never participates and the
`match[2] ? parseFloat(match[2]) : 0` fallback — written for the
attribute-absent case — always yields duration 0.  Start is parsed
correctly. -/
theorem C3_duration_dropped :
    parseTranscriptXml ("<text start=\"1.5\" dur=\"2.25\">hello</text>".toList) =
      .ok { segments :=
              [{ start := some (mkRat 3 2), duration := some 0, text := "hello".toList }],
            fullText := "hello".toList } ∧
    parseTranscriptXml ("<text start=\"7\">nodur</text>".toList) =
      .ok { segments :=
              [{ start := some 7, duration := some 0, text := "nodur".toList }],
            fullText := "nodur".toList } := by decide

theorem matchAllMainAux_nil_of_no_sub :
    ∀ (fuel : Nat) (s : List Char), hasSub ("<text".toList) s = false →
      matchAllMainAux fuel s = [] := by
  intro fuel
  induction fuel with
  | zero => intro s _; rfl
  | succ f ih =>
    intro s h
    have hlit : lit ("<text".toList) s = none := by
      cases s with
      | nil => rfl
      | cons c t =>
        simp only [hasSub, Bool.or_eq_false_iff] at h
        cases hl : lit ("<text".toList) (c :: t) with
        | none => rfl
        | some r =>
          rw [hl] at h
          simp at h
    have hm : matchMainHere s = none := by
      simp only [matchMainHere]
      rw [hlit]
      rfl
    cases s with
    | nil => simp [matchAllMainAux, hm]
    | cons c t =>
      simp only [matchAllMainAux, hm]
      apply ih
      simp only [hasSub, Bool.or_eq_false_iff] at h
      exact h.2

/-- Claim C4 (amended): the parser supports only the `<text>` dialect.
On any input in which the five characters `<text` never occur — in
particular on pure `<p t="MS" d="MS">` millisecond-dialect input — the
main regex has no match, zero segments are produced, and the parser
fails with its parse error.  The only `value/1000` millisecond
conversion in the codebase lives in the Tactiq relay's JSON handling,
not in the Timed-Text Parser. -/
theorem C4_amended (xml : List Char) (h : hasSub ("<text".toList) xml = false) :
    parseTranscriptXml xml = .error "Could not parse transcript XML - no text segments found" := by
  unfold parseTranscriptXml matchAllMain
  rw [matchAllMainAux_nil_of_no_sub _ _ h]
  rfl

/-- Claim C4 counterexample: on two well-formed millisecond-dialect
`<p>` elements the parser does not produce segments with start and
duration divided by 1000 — it fails with zero segments. -/
theorem C4_counterexample :
    parseTranscriptXml ("<p t=\"1000\" d=\"2000\">hi</p><p t=\"3000\" d=\"1000\">there</p>".toList) =
      .error "Could not parse transcript XML - no text segments found" := by decide

/-- Witness for C4 (amended), applying the theorem at a concrete
millisecond-dialect input. -/
theorem C4_witness :
    parseTranscriptXml ("<p t=\"500\" d=\"1500\">ms dialect</p>".toList) =
      .error "Could not parse transcript XML - no text segments found" :=
  C4_amended ("<p t=\"500\" d=\"1500\">ms dialect</p>".toList) (by decide)

/-- Claim C7: every `TranscriptResult` any producer returns satisfies
`fullText = join(segments.map(s => s.text), ' ')`: the main parser, the
page-scrape inline parser, the youtubetranscript.com relay parse, the
Supadata single-pseudo-segment wrapper, and the Tactiq caption mapper
all construct `fullText` exactly this way. -/
theorem C7_fullText_join :
    (∀ (xml : List Char) (tr : TranscriptResult), parseTranscriptXml xml = .ok tr →
      tr.fullText = joinSpace (tr.segments.map TranscriptSegment.text)) ∧
    (∀ (xml : List Char) (tr : TranscriptResult), parsePageCaptionXml xml = some tr →
      tr.fullText = joinSpace (tr.segments.map TranscriptSegment.text)) ∧
    (∀ (s : List Char) (tr : TranscriptResult), youtubeTranscriptComResult s = some tr →
      tr.fullText = joinSpace (tr.segments.map TranscriptSegment.text)) ∧
    (∀ (c : Option (List Char)) (tr : TranscriptResult), supadataResult c = some tr →
      tr.fullText = joinSpace (tr.segments.map TranscriptSegment.text)) ∧
    (∀ (cs : Option (List TactiqCaption)) (tr : TranscriptResult), tactiqResult cs = some tr →
      tr.fullText = joinSpace (tr.segments.map TranscriptSegment.text)) := by
  refine ⟨?_, ?_, ?_, ?_, ?_⟩
  · intro xml tr h
    simp only [parseTranscriptXml] at h
    split at h
    · exact Except.noConfusion h
    · injection h with h2
      subst h2
      rfl
  · intro xml tr h
    simp only [parsePageCaptionXml] at h
    split at h
    · injection h with h2
      subst h2
      rfl
    · exact Option.noConfusion h
  · intro s tr h
    simp only [youtubeTranscriptComResult] at h
    split at h
    · injection h with h2
      subst h2
      rfl
    · exact Option.noConfusion h
  · intro c tr h
    cases c with
    | none => exact Option.noConfusion h
    | some x =>
      simp only [supadataResult] at h
      split at h
      · exact Option.noConfusion h
      · injection h with h2
        subst h2
        rfl
  · intro cs tr h
    cases cs with
    | none => exact Option.noConfusion h
    | some l =>
      simp only [tactiqResult] at h
      split at h
      · injection h with h2
        subst h2
        rfl
      · exact Option.noConfusion h

/-- Witness for C7 at the Supadata wrapper on a concrete content. -/
theorem C7_witness :
    demoTR.fullText = joinSpace (demoTR.segments.map TranscriptSegment.text) :=
  C7_fullText_join.2.2.2.1 (some ("hi".toList)) demoTR (by decide)

/-- Claim C8 counterexample: the page-scrape inline parser pushes every
regex match unconditionally, so a `<text>` element whose content cleans
to the empty string yields a segment with empty text in the returned
result, and a negative `start` attribute is passed through unchecked —
both contradicting the claimed invariant for the page-scrape path. -/
theorem C8_counterexample :
    parsePageCaptionXml c8Xml =
      some { segments :=
               [{ start := some (-(mkRat 5 1)), duration := some (mkRat 1 1), text := [] },
                { start := some (mkRat 2 1), duration := some (mkRat 3 1), text := "hi".toList }],
             fullText := " hi".toList } ∧
    (-(mkRat 5 1) : Rat).num < 0 := by decide

set_option maxHeartbeats 1000000 in
/-- Claim C8 (amended): the MAIN parser does drop segments whose cleaned
text is empty, so every segment of a result it returns has non-empty
text; the page-scrape inline parser performs no such filtering and may
return empty-text segments; and neither path enforces `start >= 0` —
start is whatever the attribute parses to, including negative values. -/
theorem C8_amended (xml : List Char) (tr : TranscriptResult)
    (h : parseTranscriptXml xml = .ok tr) :
    ∀ seg ∈ tr.segments, seg.text ≠ [] := by
  simp only [parseTranscriptXml] at h
  split at h
  · exact Except.noConfusion h
  · injection h with h2
    subst h2
    intro seg hmem
    simp only [List.mem_filterMap] at hmem
    obtain ⟨m, _, hm⟩ := hmem
    simp only [segOfMatch] at hm
    split at hm
    · exact Option.noConfusion hm
    · rename_i hne
      injection hm with hm2
      subst hm2
      exact hne

/-- Witness for C8 (amended) at a concrete parse. -/
theorem C8_witness :
    ({ start := some (mkRat 1 1), duration := some 0, text := ['a'] } : TranscriptSegment).text ≠ [] :=
  C8_amended ("<text start=\"1\" dur=\"2\">a</text>".toList)
    { segments := [{ start := some (mkRat 1 1), duration := some 0, text := ['a'] }],
      fullText := ['a'] } (by decide)
    { start := some (mkRat 1 1), duration := some 0, text := ['a'] } (by decide)

/-- Claim C2 counterexample: the page-scrape strategy does NOT apply the
claimed policy — on `[{en, asr}, {en, manual}]` it selects the
auto-generated track (its `find` matches any English track first), while
the Innertube selector picks the manual one, so the policy is not
"applied identically by every strategy". -/
theorem C2_counterexample :
    selectTrackPage [trkEnAsr, trkEnManual] = some trkEnAsr ∧
    selectTrackDirect [trkEnAsr, trkEnManual] = some trkEnManual ∧
    trkEnAsr.kind = some "asr" ∧
    trkEnManual.languageCode = "en" ∧ trkEnManual.kind ≠ some "asr" := by decide

/-- Claim C2 (amended): the four-tier policy (manual English, else any
English, else any manual, else first) is implemented by the Innertube
strategies' selector (`fetchTranscriptDirect` in both functions); the
page-scrape strategy instead selects the first track whose language code
is `en` or starts with `en`, else the first track, with no
manual-vs-auto preference. -/
theorem C2_amended (ts : List CaptionTrack) (h : ts ≠ []) :
    ((selectTrackDirect ts).isSome = true ∧
     ∀ t, selectTrackDirect ts = some t →
       (((∃ u ∈ ts, u.languageCode = "en" ∧ u.kind ≠ some "asr") →
           t.languageCode = "en" ∧ t.kind ≠ some "asr") ∧
        ((∀ u ∈ ts, ¬(u.languageCode = "en" ∧ u.kind ≠ some "asr")) →
           (∃ u ∈ ts, u.languageCode = "en") → t.languageCode = "en") ∧
        ((∀ u ∈ ts, u.languageCode ≠ "en") →
           (∃ u ∈ ts, u.kind ≠ some "asr") → t.kind ≠ some "asr") ∧
        ((∀ u ∈ ts, u.languageCode ≠ "en") → (∀ u ∈ ts, u.kind = some "asr") →
           some t = ts.head?))) ∧
    ((selectTrackPage ts).isSome = true ∧
     ∀ t, selectTrackPage ts = some t →
       (((∃ u ∈ ts, u.languageCode = "en" ∨ u.languageCode.startsWith "en" = true) →
           (t.languageCode = "en" ∨ t.languageCode.startsWith "en" = true)) ∧
        ((∀ u ∈ ts, ¬(u.languageCode = "en" ∨ u.languageCode.startsWith "en" = true)) →
           some t = ts.head?))) := by
  constructor
  · unfold selectTrackDirect
    cases h1 : ts.find? (fun t => t.languageCode == "en" && t.kind != some "asr") with
    | some t1 =>
      have hp1 := List.find?_some h1
      simp only [Bool.and_eq_true, beq_iff_eq, bne_iff_ne] at hp1
      have hm1 := List.mem_of_find?_eq_some h1
      refine ⟨rfl, ?_⟩
      intro t ht
      injection ht with ht
      subst ht
      exact ⟨fun _ => hp1, fun _ _ => hp1.1, fun _ _ => hp1.2,
        fun hlang _ => absurd hp1.1 (hlang t1 hm1)⟩
    | none =>
      have hno1 : ∀ u ∈ ts, ¬(u.languageCode = "en" ∧ u.kind ≠ some "asr") := by
        intro u hu hprop
        exact (List.find?_eq_none.1 h1 u hu)
          (by simp only [Bool.and_eq_true, beq_iff_eq, bne_iff_ne]; exact hprop)
      cases h2 : ts.find? (fun t => t.languageCode == "en") with
      | some t2 =>
        have hp2 := List.find?_some h2
        simp only [beq_iff_eq] at hp2
        have hm2 := List.mem_of_find?_eq_some h2
        refine ⟨rfl, ?_⟩
        intro t ht
        injection ht with ht
        subst ht
        exact ⟨fun hex => absurd hex.choose_spec.2 (hno1 _ hex.choose_spec.1),
          fun _ _ => hp2,
          fun hlang _ => absurd hp2 (hlang t2 hm2),
          fun hlang _ => absurd hp2 (hlang t2 hm2)⟩
      | none =>
        have hno2 : ∀ u ∈ ts, u.languageCode ≠ "en" := by
          intro u hu he
          exact (List.find?_eq_none.1 h2 u hu) (by simp only [beq_iff_eq]; exact he)
        cases h3 : ts.find? (fun t => t.kind != some "asr") with
        | some t3 =>
          have hp3 := List.find?_some h3
          simp only [bne_iff_ne] at hp3
          have hm3 := List.mem_of_find?_eq_some h3
          refine ⟨rfl, ?_⟩
          intro t ht
          injection ht with ht
          subst ht
          exact ⟨fun hex => absurd hex.choose_spec.2.1 (hno2 _ hex.choose_spec.1),
            fun _ hex => absurd hex.choose_spec.2 (hno2 _ hex.choose_spec.1),
            fun _ _ => hp3,
            fun _ hasr => absurd (hasr t3 hm3) hp3⟩
        | none =>
          have hno3 : ∀ u ∈ ts, u.kind = some "asr" := by
            intro u hu
            have hb := List.find?_eq_none.1 h3 u hu
            simp only [bne_iff_ne] at hb
            exact not_not.1 hb
          cases ts with
          | nil => exact absurd rfl h
          | cons a l =>
            refine ⟨rfl, ?_⟩
            intro t ht
            exact ⟨fun hex => absurd hex.choose_spec.2.1 (hno2 _ hex.choose_spec.1),
              fun _ hex => absurd hex.choose_spec.2 (hno2 _ hex.choose_spec.1),
              fun _ hex => absurd (hno3 _ hex.choose_spec.1) hex.choose_spec.2,
              fun _ _ => ht.symm⟩
  · unfold selectTrackPage
    cases hq : ts.find? (fun c => c.languageCode == "en" || c.languageCode.startsWith "en") with
    | some tq =>
      have hpq := List.find?_some hq
      simp only [Bool.or_eq_true, beq_iff_eq] at hpq
      have hmq := List.mem_of_find?_eq_some hq
      refine ⟨rfl, ?_⟩
      intro t ht
      injection ht with ht
      subst ht
      exact ⟨fun _ => hpq, fun hno => absurd hpq (hno tq hmq)⟩
    | none =>
      have hnoq : ∀ u ∈ ts, ¬(u.languageCode = "en" ∨ u.languageCode.startsWith "en" = true) := by
        intro u hu hprop
        exact (List.find?_eq_none.1 hq u hu)
          (by simp only [Bool.or_eq_true, beq_iff_eq]; exact hprop)
      cases ts with
      | nil => exact absurd rfl h
      | cons a l =>
        refine ⟨rfl, ?_⟩
        intro t ht
        exact ⟨fun hex => absurd hex.choose_spec.2 (hnoq _ hex.choose_spec.1),
          fun _ => ht.symm⟩

/-- Witness for C2 (amended) at the spec's example list. -/
theorem C2_witness :
    (selectTrackDirect demoTracks).isSome = true ∧
    (selectTrackPage demoTracks).isSome = true :=
  ⟨(C2_amended demoTracks (by decide)).1.1, (C2_amended demoTracks (by decide)).2.1⟩

theorem mismatch_lit_none : ∀ (m v s : List Char), mismatchWithin m v = true → lit m (v ++ s) = none := by
  intro m
  induction m with
  | nil => intro v s h; simp [mismatchWithin] at h
  | cons c cm ih =>
    intro v s h
    cases v with
    | nil => simp [mismatchWithin] at h
    | cons d dv =>
      simp only [mismatchWithin] at h
      by_cases hc : c = d
      · rw [if_pos hc] at h
        rw [List.cons_append]
        simp [lit, hc, ih dv s h]
      · rw [List.cons_append]
        simp [lit, hc]

theorem tryMarkers_none_of_mismatch (ms : List (List Char)) (v s : List Char)
    (h : ∀ m ∈ ms, mismatchWithin m v = true) : tryMarkers ms (v ++ s) = none := by
  induction ms with
  | nil => rfl
  | cons m ms' ih =>
    simp only [tryMarkers, List.findSome?]
    rw [mismatch_lit_none m v s (h m (by simp))]
    exact ih (fun m' hm' => h m' (by simp [hm'])) 

theorem scan_append_of_fail (ms : List (List Char)) :
    ∀ (xs s : List Char),
      (∀ k, k < xs.length → tryMarkers ms (xs.drop k ++ s) = none) →
      scanList ms (xs ++ s) = scanList ms s := by
  intro xs
  induction xs with
  | nil => intro s _; rfl
  | cons c t ih =>
    intro s hk
    have h0 : tryMarkers ms (c :: (t ++ s)) = none := hk 0 (by simp)
    rw [List.cons_append]
    simp only [scanList, h0]
    exact ih s (fun k hkk => hk (k + 1) (by simp; omega))

theorem scanList_of_tryMarkers_some (ms : List (List Char)) (s r : List Char)
    (h : tryMarkers ms s = some r) : scanList ms s = some r := by
  cases s with
  | nil => simpa [scanList] using h
  | cons c t => simp [scanList, h]

theorem idChar_dot_false : isIdChar '.' = false := by decide

theorem tryMarkers_none_of_dot (ms : List (List Char)) (s : List Char)
    (hdot : ∀ m ∈ ms, '.' ∈ m) (hall : s.all isIdChar = true) : tryMarkers ms s = none := by
  induction ms with
  | nil => rfl
  | cons m ms' ih =>
    simp only [tryMarkers, List.findSome?]
    have hl : lit m s = none := by
      cases hl : lit m s with
      | none => rfl
      | some r =>
        have hseq := lit_some_eq m s r hl
        have hds : ('.' : Char) ∈ s := by
          rw [hseq]
          exact List.mem_append_left r (hdot m (by simp))
        have := (List.all_eq_true.1 hall) '.' hds
        simp [idChar_dot_false] at this
    rw [hl]
    exact ih (fun m' hm' => hdot m' (by simp [hm']))

theorem scan_none_of_idChars (ms : List (List Char)) :
    ∀ s : List Char, (∀ m ∈ ms, '.' ∈ m) → s.all isIdChar = true → scanList ms s = none := by
  intro s
  induction s with
  | nil =>
    intro hdot hall
    simp [scanList, tryMarkers_none_of_dot ms [] hdot hall]
  | cons c t ih =>
    intro hdot hall
    simp only [scanList, tryMarkers_none_of_dot ms (c :: t) hdot hall]
    exact ih hdot (by simp only [List.all_cons, Bool.and_eq_true] at hall; exact hall.2)

theorem grabN_all : ∀ (v : List Char) (n : Nat), v.all isIdChar = true → v.length = n →
    grabN n v = some v := by
  intro v
  induction v with
  | nil =>
    intro n _ hlen
    rw [← hlen]
    rfl
  | cons c t ih =>
    intro n hall hlen
    cases n with
    | zero => simp at hlen
    | succ k =>
      simp only [List.all_cons, Bool.and_eq_true] at hall
      have hnd : ¬(c = '#' ∨ c = '&' ∨ c = '?') := by
        rintro (rfl | rfl | rfl) <;> exact absurd hall.1 (by decide)
      simp only [grabN, if_neg hnd]
      rw [ih k hall.2 (by simpa using hlen)]
      rfl

theorem grabN_length : ∀ (n : Nat) (s r : List Char), grabN n s = some r → r.length = n := by
  intro n
  induction n with
  | zero =>
    intro s r h
    simp only [grabN] at h
    injection h with h
    subst h
    rfl
  | succ k ih =>
    intro s r h
    cases s with
    | nil => exact Option.noConfusion h
    | cons c t =>
      simp only [grabN] at h
      split at h
      · exact Option.noConfusion h
      · rw [Option.map_eq_some'] at h
        obtain ⟨r', hr', rfl⟩ := h
        simp [ih t r' hr']

theorem tryMarkers_length (ms : List (List Char)) (s r : List Char)
    (h : tryMarkers ms s = some r) : r.length = 11 := by
  induction ms with
  | nil => exact Option.noConfusion h
  | cons m ms' ih =>
    simp only [tryMarkers, List.findSome?] at h
    cases hl : (lit m s).bind (fun x => grabN 11 x) with
    | some b =>
      rw [hl] at h
      injection h with h
      subst h
      rw [Option.bind_eq_some] at hl
      obtain ⟨x, _, hg⟩ := hl
      exact grabN_length 11 x b hg
    | none =>
      rw [hl] at h
      exact ih h

theorem scanList_length (ms : List (List Char)) :
    ∀ (s r : List Char), scanList ms s = some r → r.length = 11 := by
  intro s
  induction s with
  | nil =>
    intro r h
    exact tryMarkers_length ms [] r h
  | cons c t ih =>
    intro r h
    simp only [scanList] at h
    cases ht : tryMarkers ms (c :: t) with
    | some b =>
      rw [ht] at h
      injection h with h
      subst h
      exact tryMarkers_length ms (c :: t) b ht
    | none =>
      rw [ht] at h
      exact ih r h

/-- Claim C6 counterexample: the capture class is `[^#&?]{11}`, not
`[A-Za-z0-9_-]{11}`, so a watch URL whose token is eleven exclamation
marks yields that token instead of the null the claim requires for
inputs outside the supported shapes with valid tokens. -/
theorem C6_counterexample :
    extractVideoId ("youtube.com/watch?v=!!!!!!!!!!!".toList) = some ("!!!!!!!!!!!".toList) ∧
    ("!!!!!!!!!!!".toList).all isIdChar = false := by decide

/-- Claim C6 (amended): for the supported URL shapes carrying a valid
11-character `[A-Za-z0-9_-]` token, and for a bare such token, the
resolver returns exactly that token (URL patterns first, in listed
order, then the bare-id check), and every returned capture has exactly
11 characters; but the captured class is `[^#&?]{11}`, so inputs whose
11 characters after a marker fall outside the id alphabet are also
accepted rather than mapped to null. -/
theorem C6_amended :
    (∀ v : List Char, v.length = 11 → v.all isIdChar = true →
      extractVideoId ("https://www.youtube.com/watch?v=".toList ++ v) = some v ∧
      extractVideoId ("https://youtu.be/".toList ++ v) = some v ∧
      extractVideoId ("https://www.youtube.com/embed/".toList ++ v) = some v ∧
      extractVideoId ("https://www.youtube.com/shorts/".toList ++ v) = some v ∧
      extractVideoId v = some v) ∧
    (∀ url v : List Char, extractVideoId url = some v → v.length = 11) := by
  constructor
  · intro v hlen hall
    have hgrab : grabN 11 v = some v := grabN_all v 11 hall hlen
    refine ⟨?_, ?_, ?_, ?_, ?_⟩
    · have htry : tryMarkers watchMarkers ("youtube.com/watch?v=".toList ++ v) = some v := by
        simp only [watchMarkers, tryMarkers, List.findSome?]
        rw [lit_self_append]
        simp [hgrab]
      have hskip : scanList watchMarkers
          ("https://www.".toList ++ ("youtube.com/watch?v=".toList ++ v)) =
          scanList watchMarkers ("youtube.com/watch?v=".toList ++ v) := by
        apply scan_append_of_fail
        have hb : ∀ k, k < ("https://www.".toList).length →
            ∀ m ∈ watchMarkers, mismatchWithin m (("https://www.".toList).drop k) = true := by
          decide
        intro k hk
        exact tryMarkers_none_of_mismatch _ _ _ (hb k hk)
      have hsplit : ("https://www.youtube.com/watch?v=".toList : List Char) =
          "https://www.".toList ++ "youtube.com/watch?v=".toList := by decide
      rw [hsplit, List.append_assoc]
      have hscan := hskip.trans (scanList_of_tryMarkers_some _ _ _ htry)
      simp only [extractVideoId]
      rw [hscan]
    · have h1 : lit ("youtube.com/watch?v=".toList) ("youtu.be/".toList ++ v) = none :=
        mismatch_lit_none _ _ _ (by decide)
      have htry : tryMarkers watchMarkers ("youtu.be/".toList ++ v) = some v := by
        simp only [watchMarkers, tryMarkers, List.findSome?]
        rw [h1, lit_self_append]
        simp [hgrab]
      have hskip : scanList watchMarkers ("https://".toList ++ ("youtu.be/".toList ++ v)) =
          scanList watchMarkers ("youtu.be/".toList ++ v) := by
        apply scan_append_of_fail
        have hb : ∀ k, k < ("https://".toList).length →
            ∀ m ∈ watchMarkers, mismatchWithin m (("https://".toList).drop k) = true := by
          decide
        intro k hk
        exact tryMarkers_none_of_mismatch _ _ _ (hb k hk)
      have hsplit : ("https://youtu.be/".toList : List Char) =
          "https://".toList ++ "youtu.be/".toList := by decide
      rw [hsplit, List.append_assoc]
      have hscan := hskip.trans (scanList_of_tryMarkers_some _ _ _ htry)
      simp only [extractVideoId]
      rw [hscan]
    · have h1 : lit ("youtube.com/watch?v=".toList) ("youtube.com/embed/".toList ++ v) = none :=
        mismatch_lit_none _ _ _ (by decide)
      have h2 : lit ("youtu.be/".toList) ("youtube.com/embed/".toList ++ v) = none :=
        mismatch_lit_none _ _ _ (by decide)
      have htry : tryMarkers watchMarkers ("youtube.com/embed/".toList ++ v) = some v := by
        simp only [watchMarkers, tryMarkers, List.findSome?]
        rw [h1, h2, lit_self_append]
        simp [hgrab]
      have hskip : scanList watchMarkers
          ("https://www.".toList ++ ("youtube.com/embed/".toList ++ v)) =
          scanList watchMarkers ("youtube.com/embed/".toList ++ v) := by
        apply scan_append_of_fail
        have hb : ∀ k, k < ("https://www.".toList).length →
            ∀ m ∈ watchMarkers, mismatchWithin m (("https://www.".toList).drop k) = true := by
          decide
        intro k hk
        exact tryMarkers_none_of_mismatch _ _ _ (hb k hk)
      have hsplit : ("https://www.youtube.com/embed/".toList : List Char) =
          "https://www.".toList ++ "youtube.com/embed/".toList := by decide
      rw [hsplit, List.append_assoc]
      have hscan := hskip.trans (scanList_of_tryMarkers_some _ _ _ htry)
      simp only [extractVideoId]
      rw [hscan]
    · have hw : scanList watchMarkers ("https://www.youtube.com/shorts/".toList ++ v) = none := by
        have hb : ∀ k, k < ("https://www.youtube.com/shorts/".toList).length →
            ∀ m ∈ watchMarkers,
              mismatchWithin m (("https://www.youtube.com/shorts/".toList).drop k) = true := by
          decide
        rw [scan_append_of_fail _ _ _ (fun k hk => tryMarkers_none_of_mismatch _ _ _ (hb k hk))]
        exact scan_none_of_idChars _ _ (by decide) hall
      have htryS : tryMarkers shortsMarkers ("youtube.com/shorts/".toList ++ v) = some v := by
        simp only [shortsMarkers, tryMarkers, List.findSome?]
        rw [lit_self_append]
        simp [hgrab]
      have hskip2 : scanList shortsMarkers
          ("https://www.".toList ++ ("youtube.com/shorts/".toList ++ v)) =
          scanList shortsMarkers ("youtube.com/shorts/".toList ++ v) := by
        apply scan_append_of_fail
        have hb : ∀ k, k < ("https://www.".toList).length →
            ∀ m ∈ shortsMarkers, mismatchWithin m (("https://www.".toList).drop k) = true := by
          decide
        intro k hk
        exact tryMarkers_none_of_mismatch _ _ _ (hb k hk)
      have hsplit : ("https://www.youtube.com/shorts/".toList : List Char) =
          "https://www.".toList ++ "youtube.com/shorts/".toList := by decide
      have hscan2 : scanList shortsMarkers ("https://www.youtube.com/shorts/".toList ++ v) =
          some v := by
        rw [hsplit, List.append_assoc]
        exact hskip2.trans (scanList_of_tryMarkers_some _ _ _ htryS)
      simp only [extractVideoId]
      rw [hw, hscan2]
    · have h1 : scanList watchMarkers v = none := scan_none_of_idChars _ _ (by decide) hall
      have h2 : scanList shortsMarkers v = none := scan_none_of_idChars _ _ (by decide) hall
      simp only [extractVideoId]
      rw [h1, h2]
      simp [hlen, hall]
  · intro url v h
    simp only [extractVideoId] at h
    cases hw : scanList watchMarkers url with
    | some r =>
      rw [hw] at h
      injection h with h
      subst h
      exact scanList_length _ _ _ hw
    | none =>
      rw [hw] at h
      cases hs : scanList shortsMarkers url with
      | some r =>
        rw [hs] at h
        injection h with h
        subst h
        exact scanList_length _ _ _ hs
      | none =>
        rw [hs] at h
        have h' : (if url.length = 11 ∧ url.all isIdChar = true then some url else none) =
            some v := h
        split at h'
        · rename_i hc
          injection h' with h'
          subst h'
          exact hc.1
        · exact Option.noConfusion h'

/-- Witness for C6 (amended) at a concrete valid id. -/
theorem C6_witness :
    extractVideoId ("https://www.youtube.com/watch?v=".toList ++ "dQw4w9WgXcQ".toList) =
      some ("dQw4w9WgXcQ".toList) :=
  (C6_amended.1 ("dQw4w9WgXcQ".toList) (by decide) (by decide)).1
